import Mathlib

/-!
# Verification of the grain-auto-uploader ingestion pipeline

Shallow embedding of the core of the `grain-auto-uploader` repository:

* the stability detector `waitForStableFile` (`src/utils/fileReady.js`),
* the queue-based sequential worker `processQueue` / `startWatcher`
  (`src/watcher.js`, the Phase-7 queue version),
* the GraphQL response monitor of `uploadFileToGrain` (`src/uploader.js`),
* the relocator `moveToProcessed` / `copyAndVerify` / `getUniqueDestPath`
  (`src/utils/fileHandler.js`),
* the extension filter `isSupportedFile` (`src/watcher.js`) and
  `parseExtensions` (`src/config.js`).

JavaScript numbers are modelled as `Nat`/`Int` (no overflow is relevant at the
sizes involved), fallible filesystem calls are driven by explicit behaviour
oracles, and the single-threaded event-loop interleaving is modelled as a
labelled transition system whose events are the atomic (synchronous) segments
of the JS code between `await` points.
-/

namespace GrainUploader

/-! ## Stability detector: `waitForStableFile` (src/utils/fileReady.js)

The JS function polls on a `setInterval` timer.  Each timer callback performs,
in order: a timeout check on the elapsed wall-clock time, an `fs.existsSync`
check, an `fs.statSync` call (whose `EACCES`/`EBUSY` failures reset the
counters and continue, and whose other failures reject), and the
size-comparison / counter logic.  We embed one callback execution as
`stableTick`, parameterised by what the filesystem reports at that tick, and a
whole run as a fold over the list of per-tick observations (each paired with
the elapsed milliseconds `Date.now() - startTime` measured at that tick). -/

/-- What one poll tick observes about the watched file. -/
inductive TickObs where
  /-- `fs.existsSync` is true and `fs.statSync` succeeds with this size. -/
  | size (n : Nat)
  /-- `fs.statSync` throws with code `EACCES` or `EBUSY`. -/
  | transientErr
  /-- `fs.statSync` throws with some other error message. -/
  | fatalErr (msg : String)
  /-- `fs.existsSync` returns false: the file has disappeared. -/
  | gone
deriving DecidableEq, Repr

/-- Terminal result of the promise returned by `waitForStableFile`. -/
inductive StableOutcome where
  | resolved
  | rejected (msg : String)
deriving DecidableEq, Repr

/-- Message of the timeout rejection (fileReady.js line 37). -/
def timeoutMsg (timeoutMs : Nat) : String :=
  "Timeout waiting for file to stabilize after " ++ toString timeoutMs ++ "ms"

/-- Message of the deletion rejection (fileReady.js line 44). -/
def deletedMsg : String := "File was deleted while waiting for it to stabilize"

/-- Message of the non-transient stat-failure rejection (fileReady.js line 63). -/
def accessMsg (m : String) : String := "Failed to access file: " ++ m

/-- One execution of the `setInterval` callback body.  `previousSize` is an
`Int` because the JS variable is initialised to `-1`; real sizes are naturals.
Returns either the terminal outcome (interval cleared) or the updated
`(previousSize, stableCount)` pair. -/
def stableTick (timeoutMs stableChecks : Nat) (elapsed : Nat)
    (previousSize : Int) (stableCount : Nat) (o : TickObs) :
    StableOutcome ⊕ (Int × Nat) :=
  -- `if (Date.now() - startTime > timeoutMs)` — strict comparison
  if timeoutMs < elapsed then .inl (.rejected (timeoutMsg timeoutMs))
  else
    match o with
    | .gone => .inl (.rejected deletedMsg)
    | .transientErr => .inr (-1, 0)          -- reset both trackers, keep polling
    | .fatalErr m => .inl (.rejected (accessMsg m))
    | .size n =>
      if (n : Int) = previousSize then
        -- `stableCount++; if (stableCount >= stableChecks) resolve()`
        if stableChecks ≤ stableCount + 1 then .inl .resolved
        else .inr (previousSize, stableCount + 1)
      else .inr ((n : Int), 0)               -- size changed: reset the counter

/-- Run the poll loop over a finite trace of ticks, starting from the given
tracker state.  Returns the terminal outcome, or the pending tracker state if
the trace ends before the promise settles. -/
def runStable (timeoutMs stableChecks : Nat) :
    Int → Nat → List (Nat × TickObs) → StableOutcome ⊕ (Int × Nat)
  | p, c, [] => .inr (p, c)
  | p, c, (elapsed, o) :: rest =>
    match stableTick timeoutMs stableChecks elapsed p c o with
    | .inl out => .inl out
    | .inr (p', c') => runStable timeoutMs stableChecks p' c' rest

/-- `waitForStableFile` over a tick trace: starts from `previousSize = -1`,
`stableCount = 0` (fileReady.js lines 28–29); `none` means the promise is
still pending when the trace ends. -/
def waitForStableFile (timeoutMs stableChecks : Nat)
    (ticks : List (Nat × TickObs)) : Option StableOutcome :=
  match runStable timeoutMs stableChecks (-1) 0 ticks with
  | .inl out => some out
  | .inr _ => none

/-! ## Queue worker: `processQueue` / `startWatcher` (src/watcher.js, Phase 7)

The watcher module keeps a module-level `fileQueue` array and an
`isProcessing` flag.  The `add` handler pushes the path and calls
`processQueue()`; `processQueue` returns immediately when already processing
or the queue is empty, otherwise sets the flag, shifts the head and handles it
(stabilize → upload → terminal action → e-mail), and in a `finally` clears the
flag and re-invokes itself when the queue is non-empty.

JS is single-threaded: the synchronous prefix of `processQueue` (flag test,
flag set, shift) is atomic, and further `add` events can only interleave at
`await` points.  We therefore model the system as a transition system with two
events: `add p` (the add handler plus the synchronous dispatch prefix) and
`complete env` (the in-flight handling running to completion, including the
`finally` block; `env` records what the collaborators did for this file).
Deferring the `finally`'s `setImmediate(processQueue)` behind interleaved
`add`s yields the same state, because the dispatch always takes the queue
head, so folding it into `complete` is faithful. -/

/-- Outcome of `await waitForStableFile(filePath)` as seen by `processQueue`. -/
inductive StabOutcome where
  | resolvedOk
  | threw (msg : String)
deriving DecidableEq, Repr

/-- Result object returned by `processFile` (src/processor.js).  `processFile`
catches every exception and returns `{ok: false, ...}`, so it never throws. -/
inductive ProcResult where
  | ok (message : String) (recordingUrl : String)
  | fail (message : String)
deriving DecidableEq, Repr

/-- Outcome of the synchronous `moveToProcessed` call as seen by
`processQueue`: the returned destination path, or the thrown error message. -/
inductive MoveOutcome where
  | moved (destPath : String)
  | threw (msg : String)
deriving DecidableEq, Repr

/-- What the collaborators do while `processQueue` handles one file. -/
structure FileEnv where
  stab : StabOutcome
  proc : ProcResult
  move : MoveOutcome
deriving DecidableEq, Repr

/-- An e-mail notification with exactly the fields the code passes
(`sendSuccessEmail({filename, timestamp, details, recordingUrl})`,
`sendErrorEmail({filename, timestamp, error})`; the timestamp is omitted from
the model).  Both functions in src/notifier.js catch their own transport
errors and return a boolean, so sending never throws. -/
inductive Notification where
  | success (filename details recordingUrl : String)
  | error (filename error : String)
deriving DecidableEq, Repr

/-- Split a character list on a separator character (the list analogue of
`String.split` on a one-character separator, written structurally so the
kernel can evaluate it on concrete paths). -/
def splitOnChar (sep : Char) : List Char → List (List Char)
  | [] => [[]]
  | c :: rest =>
    if c = sep then [] :: splitOnChar sep rest
    else
      match splitOnChar sep rest with
      | [] => [[c]]
      | g :: gs => (c :: g) :: gs

/-- Join character lists with a separator character (inverse of
`splitOnChar`). -/
def joinWithChar (sep : Char) : List (List Char) → List Char
  | [] => []
  | [g] => g
  | g :: gs => g ++ sep :: joinWithChar sep gs

/-- `path.basename` for POSIX paths: the part after the last `/`. -/
def basename (p : String) : String :=
  match (splitOnChar '/' p.data).getLast? with
  | some b => ⟨b⟩
  | none => p

/-- The try/catch body of `processQueue` (watcher.js lines 181–236): the list
of notifications sent for one dequeued file, given what the collaborators do.
The success branch's `details` field is `result.message || '...'` (JS `||`:
the default replaces an empty message). -/
def handleFile (fileName : String) (env : FileEnv) : List Notification :=
  match env.stab with
  | .threw m =>
    -- outer catch (line 228): stability check threw
    [.error fileName ("Error during file handling: " ++ m)]
  | .resolvedOk =>
    match env.proc with
    | .fail m =>
      -- `result.ok` false (line 218)
      [.error fileName ("Processing failed: " ++ m)]
    | .ok msg url =>
      match env.move with
      | .moved _ =>
        [.success fileName
          (if msg = "" then "File successfully processed and uploaded." else msg)
          url]
      | .threw m =>
        -- inner catch (line 208): move to Processed threw
        [.error fileName ("Failed to move file to Processed folder: " ++ m)]

/-- Fine-grained pipeline actions, for ordering properties.  `stabilize p` is
recorded when `waitForStableFile` resolves successfully for `p`. -/
inductive QAction where
  | enqueue (p : String)
  | dequeue (p : String)
  | stabilize (p : String)
deriving DecidableEq, Repr

/-- State of the watcher module plus observation logs.  `fileQueue` and
`isProcessing` are the module-level mutable variables (watcher.js lines
161–162); `current` is the file shifted off the queue and still being handled;
`enqueued`/`started`/`notes`/`trace` are history logs for stating properties. -/
structure QState where
  fileQueue : List String
  isProcessing : Bool
  current : Option String
  enqueued : List String
  started : List String
  notes : List Notification
  trace : List QAction
deriving DecidableEq, Repr

/-- The synchronous prefix of `processQueue()` up to its first `await`
(watcher.js lines 168–179): return if already processing or empty, else set
the flag and shift the head. -/
def tryStart (s : QState) : QState :=
  match s.fileQueue, s.isProcessing with
  | p :: rest, false =>
    { s with fileQueue := rest, isProcessing := true, current := some p,
             started := s.started ++ [p], trace := s.trace ++ [.dequeue p] }
  | _, _ => s

/-- Trace actions performed while handling a dequeued file. -/
def handleTrace (p : String) (env : FileEnv) : List QAction :=
  match env.stab with
  | .resolvedOk => [.stabilize p]
  | .threw _ => []

/-- Events of the transition system. -/
inductive QEvent where
  /-- The chokidar `add` handler for a path that passes the folder and
  extension filters (watcher.js lines 317–330): push, then `processQueue()`. -/
  | add (p : String)
  /-- The in-flight handling runs to completion, including the `finally`
  block (clear the flag, redispatch when the queue is non-empty). -/
  | complete (env : FileEnv)

/-- One transition. -/
def qstep (s : QState) : QEvent → QState
  | .add p =>
    tryStart { s with fileQueue := s.fileQueue ++ [p],
                      enqueued := s.enqueued ++ [p],
                      trace := s.trace ++ [.enqueue p] }
  | .complete env =>
    match s.current with
    | none => s        -- nothing in flight: the event has no effect
    | some p =>
      tryStart { s with
        notes := s.notes ++ handleFile (basename p) env,
        trace := s.trace ++ handleTrace p env,
        isProcessing := false,
        current := none }

/-- Initial module state: empty queue, flag false. -/
def initQ : QState := ⟨[], false, none, [], [], [], []⟩

/-- Run a sequence of events. -/
def runQ (evs : List QEvent) : QState := evs.foldl qstep initQ

/-! ## Upload session monitor: `uploadFileToGrain` (src/uploader.js)

The function registers a `page.on('response', ...)` listener that mutates
three closure variables (`uploadStarted`, `uploadSuccess`, `recordingData`)
as GraphQL responses arrive, then polls those flags: stage 1 waits up to 60 s
for `uploadStarted`, stage 2 up to 20 min for `uploadSuccess`.  We embed the
listener as a fold over the (classified) response stream and the stage-2 exit
as a function of the flags. -/

/-- The `data.recording` object of a completion-stage GraphQL payload.
`recordingUrl` is an `Option` because the field may be null/absent (JS `&&`
short-circuits on it). -/
structure RecordingPayload where
  id : String
  recordingUrl : Option String
  state : String
deriving DecidableEq, Repr

/-- One observed network response, classified the way the listener's
conditions classify it (uploader.js lines 347–398). -/
inductive GrainResponse where
  /-- Not a graphql/api URL, not JSON, or an unmatched payload shape. -/
  | other
  /-- A `data.recordingUploadInfo` payload; `uuid` is `url?.uuid`. -/
  | initiation (uuid : Option String)
  /-- An `"operationName":"recording"` payload carrying `data.recording`. -/
  | completion (rec : RecordingPayload)
deriving DecidableEq, Repr

/-- The closure variables mutated by the response listener. -/
structure MonitorState where
  uploadStarted : Bool
  uploadSuccess : Bool
  recordingData : Option RecordingPayload
deriving DecidableEq, Repr

/-- JS truthiness of a nullable string (`if (uploadInfo.url?.uuid)`). -/
def jsTruthy : Option String → Bool
  | none => false
  | some t => t ≠ ""

/-- The stage-2 success condition (uploader.js lines 376–378):
`recording.recordingUrl && recording.recordingUrl.length > 0 &&
recording.state === 'PROCESSING'`. -/
def completionMatches (r : RecordingPayload) : Bool :=
  match r.recordingUrl with
  | none => false
  | some u => jsTruthy (some u) && decide (0 < u.length) && (r.state == "PROCESSING")

/-- One execution of the response listener. -/
def respStep (st : MonitorState) : GrainResponse → MonitorState
  | .other => st
  | .initiation uuid =>
    if jsTruthy uuid then { st with uploadStarted := true } else st
  | .completion r =>
    if completionMatches r then
      { st with uploadSuccess := true, recordingData := some r }
    else st

/-- Listener state after a stream of responses (initially all flags false). -/
def monitor (resps : List GrainResponse) : MonitorState :=
  resps.foldl respStep ⟨false, false, none⟩

/-- The result object of `uploadFileToGrain` as far as the claims need it. -/
structure UploadResult where
  ok : Bool
  recordingUrl : Option String
  id : Option String
  message : String
deriving DecidableEq, Repr

/-- Completion-timeout failure message (uploader.js line 549;
`completionTimeout / 1000 = 1200`). -/
def completionTimeoutMsg : String :=
  "Upload completion timeout: No success response received after 1200 seconds. File may still be processing on Grain. Check logs/upload-timeout.png"

/-- The stage-2 exit of `uploadFileToGrain` (lines 536–561): after the
completion wait loop gives up or the flag is set, either the timeout failure
or the success result built from `recordingData`. -/
def completionOutcome (st : MonitorState) : UploadResult :=
  if st.uploadSuccess then
    match st.recordingData with
    | some r =>
      ⟨true, r.recordingUrl, some r.id,
        "Successfully uploaded file. Recording ID: " ++ r.id⟩
    | none =>
      -- dead branch: the listener sets `uploadSuccess` and `recordingData`
      -- together, so this state is unreachable from `monitor`
      ⟨true, none, none, ""⟩
  else ⟨false, none, none, completionTimeoutMsg⟩

/-- Observable result of the completion stage when the response stream over
the whole 20-minute window is `resps`. -/
def uploadCompletionResult (resps : List GrainResponse) : UploadResult :=
  completionOutcome (monitor resps)

/-! ## Relocator: src/utils/fileHandler.js

`moveToProcessed` checks the source, picks a collision-adjusted destination
name, tries an atomic `fs.renameSync`, and on `EXDEV` falls back to
`copyAndVerify` + `fs.unlinkSync`.  We model the directory contents as an
association list from path to file size, and drive the fallible syscalls with
an explicit behaviour oracle.  `fs.renameSync` silently replaces an existing
destination, which the model mirrors. -/

/-- Directory contents: paths with their file sizes. -/
def Fs : Type := List (String × Nat)

/-- `fs.existsSync`. -/
def fsExists (fs : Fs) (p : String) : Bool := fs.any (fun e => e.1 == p)

/-- `fs.statSync(...).size`, as an `Option`. -/
def fsSize (fs : Fs) (p : String) : Option Nat :=
  (fs.find? (fun e => e.1 == p)).map (fun e => e.2)

/-- Create or overwrite a file. -/
def fsSet (fs : Fs) (p : String) (n : Nat) : Fs :=
  fs.filter (fun e => e.1 != p) ++ [(p, n)]

/-- `fs.unlinkSync`. -/
def fsRemove (fs : Fs) (p : String) : Fs := fs.filter (fun e => e.1 != p)

/-- `path.dirname` for POSIX paths (sufficient for the joined paths the
module builds; the root-parent corner cases of Node are not needed). -/
def dirname (p : String) : String :=
  match (splitOnChar '/' p.data).dropLast with
  | [] => "."
  | parts => ⟨joinWithChar '/' parts⟩

/-- `path.join(dir, file)` for the already-normalised paths used here. -/
def joinPath (dir file : String) : String := dir ++ "/" ++ file

/-- `path.extname` (Node, POSIX): the suffix of the basename from its last
dot, empty when there is no dot or the only dot leads a hidden file; the
basename `".."` also has no extension. -/
def extname (p : String) : String :=
  let b := (basename p).data
  match ((List.range b.length).filter (fun j => b.get? j == some '.')).getLast? with
  | none => ""
  | some 0 => ""
  | some j => if b = ['.', '.'] then "" else ⟨b.drop j⟩

/-- Behaviour of this call's `fs.renameSync`, chosen by the environment. -/
inductive RenameBehavior where
  | ok
  | exdev
  | ebusy
  | eperm
  | eacces
  | other (msg : String)
deriving DecidableEq, Repr

/-- Behaviour of this call's `fs.copyFileSync`.  `ok destSize` means the call
returns with the destination holding `destSize` bytes (normally the source
size; a concurrent writer can make it differ).  `throwErr leftover msg` means
the call throws after having written `leftover` bytes (none: nothing was
created at the destination). -/
inductive CopyBehavior where
  | ok (destSize : Nat)
  | throwErr (leftover : Option Nat) (msg : String)
deriving DecidableEq, Repr

/-- Behaviour oracle for one `moveToProcessed` call.  `unlinkOriginal` is the
error message thrown by the EXDEV-path `fs.unlinkSync` of the source, `none`
when it succeeds. -/
structure MoveEnv where
  rename : RenameBehavior
  copy : CopyBehavior
  unlinkOriginal : Option String
deriving DecidableEq, Repr

/-- The timestamped alternative name built by `getUniqueDestPath`
(fileHandler.js lines 59–63): `dir/nameWithoutExt-ts ++ ext`, where
`nameWithoutExt` is `path.basename(destPath, ext)` — the basename with its
extension suffix removed. -/
def stampedPath (ts : String) (destPath : String) : String :=
  let ext := extname destPath
  let nameNoExt : String :=
    ⟨(basename destPath).data.take ((basename destPath).data.length - ext.data.length)⟩
  joinPath (dirname destPath) (nameNoExt ++ "-" ++ ts ++ ext)

/-- `getUniqueDestPath` (fileHandler.js lines 53–64) with the timestamp
suffix `ts` that `getTimestampSuffix()` would return at this instant: when
the plain name exists, append `-ts` before the extension.  Note the stamped
name's own existence is not re-checked. -/
def getUniqueDestPath (fs : Fs) (ts : String) (destPath : String) : String :=
  if fsExists fs destPath then stampedPath ts destPath else destPath

/-- Message thrown by the size-mismatch verification (fileHandler.js line
81), after the surrounding catch wraps it. -/
def copyMismatchMsg : String :=
  "Copy failed: File size mismatch after copy - copy verification failed"

/-- `copyAndVerify` (fileHandler.js lines 72–88): copy, then compare source
and destination sizes; on mismatch delete the copy and throw.  Returns the
thrown message (with its `Copy failed: ` wrapper), if any, and the directory
contents afterwards.  The source has been checked to exist by the caller. -/
def copyAndVerify (fs : Fs) (cb : CopyBehavior) (sourcePath destPath : String) :
    Option String × Fs :=
  match cb with
  | .throwErr leftover msg =>
    -- `fs.copyFileSync` threw: whatever it partially wrote stays behind
    (some ("Copy failed: " ++ msg),
     match leftover with
     | none => fs
     | some k => fsSet fs destPath k)
  | .ok destSize =>
    let fs1 := fsSet fs destPath destSize
    match fsSize fs1 sourcePath with
    | none =>
      -- `fs.statSync(sourcePath)` threw (source vanished): wrapped like any
      -- other failure inside `copyAndVerify`'s catch
      (some ("Copy failed: " ++ "ENOENT: no such file or directory"), fs1)
    | some ss =>
      if ss = destSize then (none, fs1)
      else (some copyMismatchMsg, fsRemove fs1 destPath)

/-- `moveToProcessed` (fileHandler.js lines 98–163).  Returns the thrown
message or the final destination path, plus the directory contents
afterwards.  The read-permission probe is modelled as granted.  Messages
produced inside the EXDEV copy fallback do not start with any of the
whitelisted prefixes of the outer catch, so they are re-wrapped with
`Failed to move file to Processed: `. -/
def moveToProcessed (fs : Fs) (env : MoveEnv) (ts : String)
    (filePath processedDir : String) : Except String String × Fs :=
  if fsExists fs filePath = false then (.error "Source file does not exist", fs)
  else
    let destPath := getUniqueDestPath fs ts (joinPath processedDir (basename filePath))
    match env.rename with
    | .ok =>
      -- atomic rename; silently replaces an existing destination
      (.ok destPath,
       fsSet (fsRemove fs filePath) destPath ((fsSize fs filePath).getD 0))
    | .ebusy => (.error "File is locked or in use by another process", fs)
    | .eperm => (.error "File is locked or in use by another process", fs)
    | .eacces => (.error "Permission denied - cannot write to Processed directory", fs)
    | .other m => (.error ("Move failed: " ++ m), fs)
    | .exdev =>
      match copyAndVerify fs env.copy filePath destPath with
      | (some err, fs1) => (.error ("Failed to move file to Processed: " ++ err), fs1)
      | (none, fs1) =>
        match env.unlinkOriginal with
        | some dmsg =>
          (.error ("File copied but original could not be deleted: " ++ dmsg), fs1)
        | none => (.ok destPath, fsRemove fs1 filePath)

/-! ## Extension filter: `isSupportedFile` (src/watcher.js lines 254–257) and
`parseExtensions` (src/config.js lines 14–24) -/

/-- `String.prototype.toLowerCase` restricted to its ASCII action, which is
all the extension comparison exercises: `'A'..'Z'` map to `'a'..'z'`. -/
def jsLowerChar (c : Char) : Char :=
  if 'A' ≤ c ∧ c ≤ 'Z' then Char.ofNat (c.toNat + 32) else c

/-- `toLowerCase` over a whole string. -/
def jsToLower (s : String) : String := ⟨s.data.map jsLowerChar⟩

/-- The default allow-list (config.js `DEFAULT_SUPPORTED_EXTENSIONS`, equal
to watcher.js `SUPPORTED_EXTENSIONS`). -/
def SUPPORTED_EXTENSIONS : List String := [".mov", ".mp4", ".mp3", ".wav", ".m4a"]

/-- `isSupportedFile` (watcher.js): lowercase the extension, then
`SUPPORTED_EXTENSIONS.includes(ext)` (strict string equality), with the
allow-list a parameter since config can override it. -/
def isSupportedFile (exts : List String) (filePath : String) : Bool :=
  exts.contains (jsToLower (extname filePath))

/-- `parseExtensions` (config.js): split on commas, trim, drop empties,
ensure a leading dot.  Case is preserved. -/
def parseExtensions (s : String) : List String :=
  if s = "" then []
  else
    (((s.splitOn ",").map String.trim).filter (fun e => 0 < e.length)).map
      (fun e => if e.startsWith "." then e else "." ++ e)

/-! ## Property-level definitions -/

/-- Basic queue invariant: the dispatch log followed by the pending queue is
the enqueue log (FIFO), and the processing flag is set exactly while a file
occupies the single in-flight slot. -/
def queueInv (s : QState) : Prop :=
  s.started ++ s.fileQueue = s.enqueued ∧ s.isProcessing = s.current.isSome

/-- Every successful stabilization in a trace is preceded by the dequeue of
the same path. -/
def stabAfterDequeue (l : List QAction) : Prop :=
  ∀ i p, l.get? i = some (.stabilize p) →
    ∃ j, j < i ∧ l.get? j = some (.dequeue p)

/-- Trace invariant used to prove `stabAfterDequeue` for reachable states:
the in-flight file has already been logged as dequeued. -/
def queueTraceInv (s : QState) : Prop :=
  stabAfterDequeue s.trace ∧ ∀ p, s.current = some p → QAction.dequeue p ∈ s.trace

/-- Does the string `needle` occur as a contiguous substring of `hay`? -/
def strIncludes (hay needle : String) : Bool :=
  (List.range (hay.data.length + 1)).any
    (fun i => needle.data.isPrefixOf (hay.data.drop i))

/-- The text payloads carried by a notification. -/
def notifTexts : Notification → List String
  | .success f d r => [f, d, r]
  | .error f e => [f, e]

/-- Does any text payload of the notification mention `sub`? -/
def notifReportsStr (n : Notification) (sub : String) : Bool :=
  (notifTexts n).any (fun t => strIncludes t sub)

/-- Does the string contain an ASCII uppercase letter? -/
def hasUpper (s : String) : Bool :=
  s.data.any (fun c => decide ('A' ≤ c) && decide (c ≤ 'Z'))

/-! ## Queue-worker lemmas -/

theorem tryStart_of_processing (s : QState) (h : s.isProcessing = true) :
    tryStart s = s := by
  unfold tryStart
  split
  · simp_all
  · rfl

theorem queueInv_tryStart (s : QState) (h : queueInv s) : queueInv (tryStart s) := by
  obtain ⟨h1, h2⟩ := h
  unfold tryStart
  split
  · next p rest hq hp =>
    refine ⟨?_, rfl⟩
    rw [hq] at h1
    simpa using h1
  · exact ⟨h1, h2⟩

theorem queueInv_qstep (s : QState) (e : QEvent) (h : queueInv s) :
    queueInv (qstep s e) := by
  obtain ⟨h1, h2⟩ := h
  cases e with
  | add p =>
    apply queueInv_tryStart
    exact ⟨by rw [← List.append_assoc, h1], h2⟩
  | complete env =>
    cases hc : s.current with
    | none => simpa [qstep, hc] using ⟨h1, h2⟩
    | some p =>
      simp only [qstep, hc]
      apply queueInv_tryStart
      exact ⟨h1, rfl⟩

theorem queueInv_foldl (evs : List QEvent) (s : QState) (h : queueInv s) :
    queueInv (evs.foldl qstep s) := by
  induction evs generalizing s with
  | nil => exact h
  | cons e rest ih => exact ih _ (queueInv_qstep s e h)

theorem queueInv_runQ (evs : List QEvent) : queueInv (runQ evs) :=
  queueInv_foldl evs initQ ⟨rfl, rfl⟩

theorem stabAfterDequeue_append (l extra : List QAction)
    (h : stabAfterDequeue l)
    (hx : ∀ p, QAction.stabilize p ∈ extra → QAction.dequeue p ∈ l) :
    stabAfterDequeue (l ++ extra) := by
  intro i p hi
  by_cases hli : i < l.length
  · rw [List.get?_append hli] at hi
    obtain ⟨j, hj, hjv⟩ := h i p hi
    exact ⟨j, hj, by rw [List.get?_append (lt_trans hj hli)]; exact hjv⟩
  · push_neg at hli
    rw [List.get?_append_right hli] at hi
    have hmem : QAction.stabilize p ∈ extra := List.get?_mem hi
    obtain ⟨j, hjv⟩ := List.get?_of_mem (hx p hmem)
    have hjl : j < l.length := by
      obtain ⟨hlt, _⟩ := List.get?_eq_some.mp hjv
      exact hlt
    exact ⟨j, lt_of_lt_of_le hjl hli,
      by rw [List.get?_append hjl]; exact hjv⟩

theorem queueTraceInv_tryStart (s : QState) (h : queueTraceInv s) :
    queueTraceInv (tryStart s) := by
  obtain ⟨h1, h2⟩ := h
  unfold tryStart
  split
  · next p rest hq hp =>
    constructor
    · apply stabAfterDequeue_append _ _ h1
      intro q hq2
      simp at hq2
    · intro q hq2
      simp at hq2
      simp [hq2]
  · exact ⟨h1, h2⟩

theorem queueTraceInv_qstep (s : QState) (e : QEvent) (h : queueTraceInv s) :
    queueTraceInv (qstep s e) := by
  obtain ⟨h1, h2⟩ := h
  cases e with
  | add p =>
    apply queueTraceInv_tryStart
    constructor
    · apply stabAfterDequeue_append _ _ h1
      intro q hq2
      simp at hq2
    · intro q hq2
      simp [List.mem_append]
      exact h2 q hq2
  | complete env =>
    cases hc : s.current with
    | none => simpa [qstep, hc] using ⟨h1, h2⟩
    | some p =>
      simp only [qstep, hc]
      apply queueTraceInv_tryStart
      constructor
      · apply stabAfterDequeue_append _ _ h1
        intro q hq2
        have hqp : q = p := by
          unfold handleTrace at hq2
          split at hq2 <;> simp_all
        rw [hqp]
        exact h2 p hc
      · intro q hq2
        simp at hq2

theorem queueTraceInv_foldl (evs : List QEvent) (s : QState) (h : queueTraceInv s) :
    queueTraceInv (evs.foldl qstep s) := by
  induction evs generalizing s with
  | nil => exact h
  | cons e rest ih => exact ih _ (queueTraceInv_qstep s e h)

theorem queueTraceInv_runQ (evs : List QEvent) : queueTraceInv (runQ evs) :=
  queueTraceInv_foldl evs initQ ⟨fun i p hi => by simp [initQ] at hi, fun p hp => by simp [initQ] at hp⟩

/-! ## Stability-detector lemmas -/

theorem runStable_append (timeoutMs stableChecks : Nat) (p : Int) (c : Nat)
    (xs ys : List (Nat × TickObs)) :
    runStable timeoutMs stableChecks p c (xs ++ ys)
      = match runStable timeoutMs stableChecks p c xs with
        | .inl out => .inl out
        | .inr (p', c') => runStable timeoutMs stableChecks p' c' ys := by
  induction xs generalizing p c with
  | nil => rfl
  | cons x rest ih =>
    obtain ⟨e, o⟩ := x
    simp only [List.cons_append, runStable]
    cases h : stableTick timeoutMs stableChecks e p c o with
    | inl out => rfl
    | inr pc =>
      obtain ⟨p', c'⟩ := pc
      exact ih p' c'

/-! ## String-message lemmas -/

theorem string_append_ne {a b s t : String} {c d : Char}
    (ha : (a ++ s).data.head? = some c) (hb : (b ++ t).data.head? = some d)
    (hcd : c ≠ d) : a ++ s ≠ b ++ t := by
  intro h
  rw [h, hb] at ha
  exact hcd (Option.some.inj ha.symm)

theorem deletedMsg_ne_timeoutMsg (t : Nat) : deletedMsg ≠ timeoutMsg t := by
  intro h
  have h2 : deletedMsg.data.head? = (timeoutMsg t).data.head? := by rw [h]
  unfold deletedMsg timeoutMsg at h2
  rcases hs : toString t with ⟨l⟩
  rw [hs] at h2
  have hF : ("File was deleted while waiting for it to stabilize" : String).data.head?
      = some 'F' := rfl
  have hT : (("Timeout waiting for file to stabilize after " ++ String.mk l) ++ "ms").data.head?
      = some 'T' := rfl
  rw [hF, hT] at h2
  simp at h2

/-! ## Monitor lemmas -/

theorem respStep_empty_url (st : MonitorState) (rec : RecordingPayload)
    (hurl : rec.recordingUrl = some "") :
    respStep st (.completion rec) = st := by
  simp [respStep, completionMatches, hurl, jsTruthy]

theorem monitor_foldl_no_success (resps : List GrainResponse) (st : MonitorState)
    (hst : st.uploadSuccess = false)
    (h : ∀ rec, GrainResponse.completion rec ∈ resps → rec.recordingUrl = some "") :
    (resps.foldl respStep st).uploadSuccess = false := by
  induction resps generalizing st with
  | nil => exact hst
  | cons r rest ih =>
    refine ih _ ?_ (fun rec hrec => h rec (List.mem_cons_of_mem _ hrec))
    cases r with
    | other => exact hst
    | initiation uuid =>
      simp only [respStep]
      split <;> simp [hst]
    | completion rec =>
      rw [respStep_empty_url st rec (h rec (List.mem_cons_self _ _))]
      exact hst

/-! ## Filesystem-model lemmas -/

theorem find?_filter_ne (l : List (String × Nat)) (p q : String) (h : q ≠ p) :
    (l.filter (fun e => e.1 != p)).find? (fun e => e.1 == q)
      = l.find? (fun e => e.1 == q) := by
  induction l with
  | nil => rfl
  | cons e rest ih =>
    obtain ⟨k, v⟩ := e
    by_cases he : k = p
    · subst he
      have hq : (k == q) = false := by simp [Ne.symm h]
      simp [List.filter_cons, List.find?_cons, hq, ih]
    · by_cases he2 : k = q
      · subst he2
        simp [List.filter_cons, List.find?_cons, he, ih]
      · simp [List.filter_cons, List.find?_cons, he, he2, ih]

theorem find?_filter_self (l : List (String × Nat)) (p : String) :
    (l.filter (fun e => e.1 != p)).find? (fun e => e.1 == p) = none := by
  apply List.find?_eq_none.mpr
  intro e he
  have := List.of_mem_filter he
  simpa using this

theorem fsSize_fsSet_same (fs : Fs) (p : String) (n : Nat) :
    fsSize (fsSet fs p n) p = some n := by
  unfold fsSize fsSet
  rw [List.find?_append, find?_filter_self]
  simp [List.find?_cons]

theorem fsSize_fsSet_other (fs : Fs) (p q : String) (n : Nat) (h : q ≠ p) :
    fsSize (fsSet fs p n) q = fsSize fs q := by
  unfold fsSize fsSet
  rw [List.find?_append, find?_filter_ne _ _ _ h]
  cases hf : fs.find? (fun e => e.1 == q) with
  | none =>
    have hpq : (p == q) = false := by simp [Ne.symm h]
    simp [List.find?_cons, hpq]
  | some e => simp

theorem fsExists_fsRemove_same (fs : Fs) (p : String) :
    fsExists (fsRemove fs p) p = false := by
  unfold fsExists fsRemove
  rw [List.any_eq_false]
  intro e he
  have := List.of_mem_filter he
  simpa using this

theorem fsExists_of_fsSize (fs : Fs) (p : String) (n : Nat)
    (h : fsSize fs p = some n) : fsExists fs p = true := by
  unfold fsSize at h
  unfold fsExists
  cases hf : fs.find? (fun e => e.1 == p) with
  | none => rw [hf] at h; simp at h
  | some e =>
    have hmem := List.mem_of_find?_eq_some hf
    have hpred := List.find?_some hf
    rw [List.any_eq_true]
    exact ⟨e, hmem, hpred⟩

/-! ## Character-case lemmas -/

theorem char_le_iff_toNat (c d : Char) : c ≤ d ↔ c.toNat ≤ d.toNat :=
  ⟨fun h => h, fun h => h⟩

theorem char_toNat_ofNat (n : Nat) (h1 : 97 ≤ n) (h2 : n ≤ 122) :
    (Char.ofNat n).toNat = n := by
  have hv : n.isValidChar := Or.inl (by omega)
  simp [Char.ofNat, hv, Char.ofNatAux, Char.toNat, UInt32.toNat, UInt32.ofNat']

theorem jsLowerChar_not_upper (c : Char) :
    ¬('A' ≤ jsLowerChar c ∧ jsLowerChar c ≤ 'Z') := by
  unfold jsLowerChar
  split
  · next h =>
    obtain ⟨h1, h2⟩ := h
    rw [char_le_iff_toNat] at h1 h2
    have e1 : ('A' : Char).toNat = 65 := rfl
    have e2 : ('Z' : Char).toNat = 90 := rfl
    rw [e1] at h1
    rw [e2] at h2
    have hv : (Char.ofNat (c.toNat + 32)).toNat = c.toNat + 32 :=
      char_toNat_ofNat _ (by omega) (by omega)
    rintro ⟨g1, g2⟩
    rw [char_le_iff_toNat, hv, e1] at g1
    rw [char_le_iff_toNat, hv, e2] at g2
    omega
  · next h => exact h

theorem jsToLower_ne_of_hasUpper (e : String) (he : hasUpper e = true) (s : String) :
    jsToLower s ≠ e := by
  intro h
  rw [← h] at he
  unfold hasUpper jsToLower at he
  simp at he
  obtain ⟨c, hc, h1, h2⟩ := he
  exact jsLowerChar_not_upper c ⟨h1, h2⟩

/-! ## Claim theorems -/

/-- Claim C1: in every reachable state of the queue worker, the dispatch log
followed by the pending queue equals the enqueue log (so files are dispatched
to processing in exactly the FIFO enqueue order), the processing flag is set
exactly while the single in-flight slot is occupied, and while a file is
mid-processing a further `add` event enqueues but performs no dequeue: the
dispatch log and the in-flight file are unchanged. -/
theorem processQueue_single_flight_fifo (evs : List QEvent) :
    (runQ evs).started ++ (runQ evs).fileQueue = (runQ evs).enqueued
    ∧ (runQ evs).isProcessing = ((runQ evs).current).isSome
    ∧ (∀ p, (runQ evs).isProcessing = true →
        (qstep (runQ evs) (.add p)).started = (runQ evs).started
        ∧ (qstep (runQ evs) (.add p)).current = (runQ evs).current) := by
  refine ⟨(queueInv_runQ evs).1, (queueInv_runQ evs).2, fun p hp => ?_⟩
  have ht : qstep (runQ evs) (.add p)
      = { runQ evs with fileQueue := (runQ evs).fileQueue ++ [p],
                        enqueued := (runQ evs).enqueued ++ [p],
                        trace := (runQ evs).trace ++ [QAction.enqueue p] } := by
    show tryStart _ = _
    exact tryStart_of_processing _ hp
  rw [ht]
  exact ⟨rfl, rfl⟩

/-- Witness for C1 at a concrete run: after `add a; add b` the worker is
mid-processing `a`, and a third `add` does not extend the dispatch log. -/
theorem processQueue_single_flight_fifo_witness :
    (qstep (runQ [QEvent.add "/w/a.mp3", QEvent.add "/w/b.mp3"]) (.add "/w/c.mp3")).started
      = (runQ [QEvent.add "/w/a.mp3", QEvent.add "/w/b.mp3"]).started :=
  ((processQueue_single_flight_fifo [QEvent.add "/w/a.mp3", QEvent.add "/w/b.mp3"]).2.2
    "/w/c.mp3" (by decide)).1

/-- Claim C2: for a poll tick within the timeout, the consecutive-equal-size
counter resets to zero when the observed size differs from the previous
reading and on a transient `EACCES`/`EBUSY` error; the tick resolves the
promise exactly when the reading equals the previous one and the incremented
counter reaches `stableChecks`; and any tick whose elapsed time exceeds
`timeoutMs` rejects with the timeout error. -/
theorem waitForStableFile_counter_protocol (timeoutMs stableChecks : Nat)
    (previousSize : Int) (stableCount : Nat) (elapsed : Nat)
    (he : elapsed ≤ timeoutMs) :
    (∀ n : Nat, (n : Int) ≠ previousSize →
      stableTick timeoutMs stableChecks elapsed previousSize stableCount (.size n)
        = .inr ((n : Int), 0))
    ∧ stableTick timeoutMs stableChecks elapsed previousSize stableCount .transientErr
        = .inr (-1, 0)
    ∧ (∀ n : Nat,
        stableTick timeoutMs stableChecks elapsed previousSize stableCount (.size n)
          = .inl .resolved
        ↔ ((n : Int) = previousSize ∧ stableChecks ≤ stableCount + 1))
    ∧ (∀ e2 o, timeoutMs < e2 →
        stableTick timeoutMs stableChecks e2 previousSize stableCount o
          = .inl (.rejected (timeoutMsg timeoutMs))) := by
  have hnl : ¬ timeoutMs < elapsed := Nat.not_lt.mpr he
  refine ⟨?_, ?_, ?_, ?_⟩
  · intro n hne
    simp [stableTick, hnl, hne]
  · simp [stableTick, hnl]
  · intro n
    simp only [stableTick, hnl, if_false]
    split
    · next hsz =>
      split
      · next hcnt => simp [hsz, hcnt]
      · next hcnt => simp [hsz, hcnt]
    · next hsz => simp [hsz]
  · intro e2 o h2
    simp [stableTick, h2]

/-- Witness for C2: at the default policy (30 s timeout, 2 readings), a tick
at 500 ms with a size differing from the previous reading resets the counter. -/
theorem waitForStableFile_counter_protocol_witness :
    stableTick 30000 2 500 5 1 (.size 6) = .inr ((6 : Int), 0) :=
  (waitForStableFile_counter_protocol 30000 2 5 1 500 (by decide)).1 6 (by decide)

/-- Claim C3 counterexample: a single `add` event enqueues the path and the
worker dequeues it, with no stabilization having occurred at (or before)
enqueue time — the trace holds the enqueue action first and no `stabilize`
action at all, so the path was placed on the queue without having been
confirmed stable. -/
theorem enqueue_without_prior_stabilization_cex :
    (runQ [QEvent.add "/w/a.mp3"]).trace
      = [QAction.enqueue "/w/a.mp3", QAction.dequeue "/w/a.mp3"]
    ∧ QAction.stabilize "/w/a.mp3" ∉ (runQ [QEvent.add "/w/a.mp3"]).trace := by
  exact ⟨rfl, by decide⟩

/-- Claim C3 (amended): stabilization does not precede enqueueing — paths are
enqueued immediately upon detection, and the queue worker confirms stability
only after dequeuing the file (every `stabilize` action in a reachable trace
is preceded by the `dequeue` of the same path). -/
theorem stabilize_only_after_dequeue (evs : List QEvent) (i : Nat) (p : String)
    (h : (runQ evs).trace.get? i = some (.stabilize p)) :
    ∃ j, j < i ∧ (runQ evs).trace.get? j = some (.dequeue p) :=
  (queueTraceInv_runQ evs).1 i p h

/-- Witness for the amended C3: in the run `add a; complete`, the
stabilization of `a` (at trace index 2) is preceded by its dequeue. -/
theorem stabilize_only_after_dequeue_witness :
    ∃ j, j < 2
      ∧ (runQ [QEvent.add "/w/a.mp3",
               QEvent.complete ⟨.resolvedOk, .ok "m" "u", .moved "d"⟩]).trace.get? j
          = some (.dequeue "/w/a.mp3") :=
  stabilize_only_after_dequeue
    [QEvent.add "/w/a.mp3", QEvent.complete ⟨.resolvedOk, .ok "m" "u", .moved "d"⟩]
    2 "/w/a.mp3" (by decide)

/-- Claim C4: a completion-stage response whose recording payload carries an
empty `recordingUrl` leaves the listener state unchanged (in particular
`uploadSuccess` stays false), and a whole response stream in which every
completion payload has an empty url leaves `uploadSuccess` false, so the
completion stage ends in the completion-timeout failure, not success. -/
theorem empty_recordingUrl_not_success (st : MonitorState) (rec : RecordingPayload)
    (hurl : rec.recordingUrl = some "") :
    respStep st (.completion rec) = st
    ∧ (∀ resps : List GrainResponse,
        (∀ r, GrainResponse.completion r ∈ resps → r.recordingUrl = some "") →
        (monitor resps).uploadSuccess = false
        ∧ uploadCompletionResult resps = ⟨false, none, none, completionTimeoutMsg⟩) := by
  refine ⟨respStep_empty_url st rec hurl, fun resps h => ?_⟩
  have hm : (monitor resps).uploadSuccess = false :=
    monitor_foldl_no_success resps ⟨false, false, none⟩ rfl h
  refine ⟨hm, ?_⟩
  unfold uploadCompletionResult completionOutcome
  rw [hm]
  simp

/-- Witness for C4: a stream consisting of one completion payload whose url
is the empty string ends in the completion-timeout failure. -/
theorem empty_recordingUrl_not_success_witness :
    uploadCompletionResult [GrainResponse.completion ⟨"id1", some "", "PROCESSING"⟩]
      = ⟨false, none, none, completionTimeoutMsg⟩ :=
  ((empty_recordingUrl_not_success ⟨true, false, none⟩ ⟨"id1", some "", "PROCESSING"⟩ rfl).2
    [GrainResponse.completion ⟨"id1", some "", "PROCESSING"⟩]
    (by rintro r hr; simp at hr; rw [hr])).2

/-- Claim C5 counterexample: when the upload succeeds (with remote id
`RID777` and url `https://grain.com/r/RID777`) but the relocation throws, the
error notification carries only the filename and the relocation error text —
neither the remote url nor the remote id occurs in any of its text payloads,
so the notification does not report the remote recording id/url. -/
theorem relocation_email_omits_remote_reference_cex :
    handleFile "a.mp3"
        ⟨.resolvedOk,
         .ok "Successfully uploaded to Grain. Recording ID: RID777" "https://grain.com/r/RID777",
         .threw "disk full"⟩
      = [.error "a.mp3" "Failed to move file to Processed folder: disk full"]
    ∧ notifReportsStr
        (.error "a.mp3" "Failed to move file to Processed folder: disk full")
        "https://grain.com/r/RID777" = false
    ∧ notifReportsStr
        (.error "a.mp3" "Failed to move file to Processed folder: disk full")
        "RID777" = false := by
  exact ⟨rfl, by decide, by decide⟩

/-- Claim C5 (amended): a relocation failure after a successful upload is
reported as exactly one error notification whose message
(`Failed to move file to Processed folder: …`) is distinct from the
upload-stage failure message (`Processing failed: …`) and from the
stabilization failure message (`Error during file handling: …`) — but the
notification does not include the remote recording id/url obtained from the
successful upload (it carries only the filename and the relocation error
text). -/
theorem relocation_failure_distinct_outcome (fileName msg url m : String) :
    handleFile fileName ⟨.resolvedOk, .ok msg url, .threw m⟩
      = [.error fileName ("Failed to move file to Processed folder: " ++ m)]
    ∧ (∀ pm, ("Failed to move file to Processed folder: " ++ m)
        ≠ ("Processing failed: " ++ pm))
    ∧ (∀ sm, ("Failed to move file to Processed folder: " ++ m)
        ≠ ("Error during file handling: " ++ sm)) := by
  refine ⟨rfl, fun pm => ?_, fun sm => ?_⟩
  · obtain ⟨lm⟩ := m
    obtain ⟨lp⟩ := pm
    exact string_append_ne (c := 'F') (d := 'P') rfl rfl (by decide)
  · obtain ⟨lm⟩ := m
    obtain ⟨ls⟩ := sm
    exact string_append_ne (c := 'F') (d := 'E') rfl rfl (by decide)

/-- Witness for the amended C5 at concrete strings. -/
theorem relocation_failure_distinct_outcome_witness :
    handleFile "a.mp3" ⟨.resolvedOk, .ok "M" "U", .threw "disk full"⟩
      = [.error "a.mp3" "Failed to move file to Processed folder: disk full"] :=
  (relocation_failure_distinct_outcome "a.mp3" "M" "U" "disk full").1

/-- Claim C6: whatever the collaborators did for the in-flight file (success,
upload failure, relocation failure, or a thrown stabilization error — the
`env` is universally quantified over all of these), the `finally` block of the
worker leaves the processing flag cleared when the queue is empty, and when
the queue is non-empty it immediately dispatches the next entry (the head
becomes the in-flight file, the flag is set again, and the dispatch log grows
by exactly that head). -/
theorem worker_always_resumes (s : QState) (p : String) (env : FileEnv)
    (hc : s.current = some p) :
    (s.fileQueue = [] →
      (qstep s (.complete env)).isProcessing = false
      ∧ (qstep s (.complete env)).current = none)
    ∧ (∀ q rest, s.fileQueue = q :: rest →
        (qstep s (.complete env)).isProcessing = true
        ∧ (qstep s (.complete env)).current = some q
        ∧ (qstep s (.complete env)).fileQueue = rest
        ∧ (qstep s (.complete env)).started = s.started ++ [q]) := by
  constructor
  · intro hq
    simp only [qstep, hc]
    unfold tryStart
    split
    · next heq _ => rw [hq] at heq; cases heq
    · exact ⟨rfl, rfl⟩
  · intro q rest hq
    simp only [qstep, hc]
    unfold tryStart
    split
    · next q' rest' heq _ =>
      rw [hq] at heq
      cases heq
      exact ⟨rfl, rfl, rfl, rfl⟩
    · next hno =>
      exact (hno q rest hq rfl).elim

/-- Witness for C6: after a file fails stabilization, the worker dispatches
the next queued entry. -/
theorem worker_always_resumes_witness :
    (qstep ⟨["/w/b.mp3"], true, some "/w/a.mp3", ["/w/a.mp3", "/w/b.mp3"], ["/w/a.mp3"], [], []⟩
        (.complete ⟨.threw "boom", .fail "x", .threw "y"⟩)).isProcessing = true
    ∧ (qstep ⟨["/w/b.mp3"], true, some "/w/a.mp3", ["/w/a.mp3", "/w/b.mp3"], ["/w/a.mp3"], [], []⟩
        (.complete ⟨.threw "boom", .fail "x", .threw "y"⟩)).current = some "/w/b.mp3"
    ∧ (qstep ⟨["/w/b.mp3"], true, some "/w/a.mp3", ["/w/a.mp3", "/w/b.mp3"], ["/w/a.mp3"], [], []⟩
        (.complete ⟨.threw "boom", .fail "x", .threw "y"⟩)).fileQueue = []
    ∧ (qstep ⟨["/w/b.mp3"], true, some "/w/a.mp3", ["/w/a.mp3", "/w/b.mp3"], ["/w/a.mp3"], [], []⟩
        (.complete ⟨.threw "boom", .fail "x", .threw "y"⟩)).started = ["/w/a.mp3"] ++ ["/w/b.mp3"] :=
  (worker_always_resumes
    ⟨["/w/b.mp3"], true, some "/w/a.mp3", ["/w/a.mp3", "/w/b.mp3"], ["/w/a.mp3"], [], []⟩
    "/w/a.mp3" ⟨.threw "boom", .fail "x", .threw "y"⟩ rfl).2 "/w/b.mp3" [] rfl

/-- Claim C7: a tick trace that is still pending within the timeout and then
observes the file gone at an elapsed time not exceeding `timeoutMs` makes
`waitForStableFile` reject with the deletion error message, which is not the
timeout error message (and the model rejects rather than crashing). -/
theorem deleted_mid_stabilization (timeoutMs stableChecks : Nat)
    (pre : List (Nat × TickObs)) (p : Int) (c : Nat) (elapsed : Nat)
    (hpre : runStable timeoutMs stableChecks (-1) 0 pre = .inr (p, c))
    (he : elapsed ≤ timeoutMs) :
    waitForStableFile timeoutMs stableChecks (pre ++ [(elapsed, .gone)])
      = some (.rejected deletedMsg)
    ∧ deletedMsg ≠ timeoutMsg timeoutMs := by
  refine ⟨?_, deletedMsg_ne_timeoutMsg timeoutMs⟩
  unfold waitForStableFile
  rw [runStable_append, hpre]
  simp [runStable, stableTick, Nat.not_lt.mpr he]

/-- Witness for C7: default policy, one inconclusive size reading, then the
file disappears at 600 ms. -/
theorem deleted_mid_stabilization_witness :
    waitForStableFile 30000 2 [(500, TickObs.size 5), (600, TickObs.gone)]
      = some (.rejected deletedMsg) :=
  (deleted_mid_stabilization 30000 2 [(500, TickObs.size 5)] 5 0 600
    (by decide) (by decide)).1

/-- Claim C8: handling one dequeued file issues exactly one notification, and
it is a success notification precisely when stabilization resolved, the
upload returned ok and the relocation succeeded; in every other combination
(upload failure, relocation failure, thrown stabilization error) it is
exactly one error notification. -/
theorem exactly_one_notification (fileName : String) (env : FileEnv) :
    (handleFile fileName env).length = 1
    ∧ ((∃ d r, handleFile fileName env = [.success fileName d r]) ↔
        (env.stab = .resolvedOk
          ∧ (∃ m u, env.proc = .ok m u)
          ∧ (∃ dp, env.move = .moved dp)))
    ∧ ((∃ e, handleFile fileName env = [.error fileName e]) ↔
        ¬(env.stab = .resolvedOk
          ∧ (∃ m u, env.proc = .ok m u)
          ∧ (∃ dp, env.move = .moved dp))) := by
  obtain ⟨stab, proc, move⟩ := env
  cases stab <;> cases proc <;> cases move <;> simp [handleFile]

/-- Claim C9 counterexample.  (a) On the cross-device fallback, when
`fs.copyFileSync` itself throws after writing 3 of the source's 10 bytes,
`moveToProcessed` throws but the incomplete 3-byte file remains at the chosen
destination path (the code only deletes the copy on a size-mismatch after a
*completed* copy).  (b) When a file of the same name was already processed
and the timestamp suffix collides (`a-TS.mp3` already exists, 99 bytes),
`getUniqueDestPath` returns the stamped name without re-checking it and
`fs.renameSync` silently overwrites the existing 99-byte file. -/
theorem moveToProcessed_partial_and_overwrite_cex :
    (moveToProcessed [("/w/a.mp3", 10)]
        ⟨.exdev, .throwErr (some 3) "ENOSPC: no space left on device", none⟩
        "TS" "/w/a.mp3" "/w/Processed").1
      = .error "Failed to move file to Processed: Copy failed: ENOSPC: no space left on device"
    ∧ fsSize (moveToProcessed [("/w/a.mp3", 10)]
        ⟨.exdev, .throwErr (some 3) "ENOSPC: no space left on device", none⟩
        "TS" "/w/a.mp3" "/w/Processed").2 "/w/Processed/a.mp3" = some 3
    ∧ fsSize [("/w/a.mp3", 10)] "/w/a.mp3" = some 10
    ∧ fsExists [("/w/a.mp3", 10), ("/w/Processed/a.mp3", 7), ("/w/Processed/a-TS.mp3", 99)]
        "/w/Processed/a-TS.mp3" = true
    ∧ (moveToProcessed [("/w/a.mp3", 10), ("/w/Processed/a.mp3", 7), ("/w/Processed/a-TS.mp3", 99)]
        ⟨.ok, .ok 10, none⟩ "TS" "/w/a.mp3" "/w/Processed").1 = .ok "/w/Processed/a-TS.mp3"
    ∧ fsSize (moveToProcessed [("/w/a.mp3", 10), ("/w/Processed/a.mp3", 7), ("/w/Processed/a-TS.mp3", 99)]
        ⟨.ok, .ok 10, none⟩ "TS" "/w/a.mp3" "/w/Processed").2 "/w/Processed/a-TS.mp3" = some 10 := by
  exact ⟨rfl, rfl, rfl, rfl, rfl, rfl⟩

/-- Claim C9 (amended): when the cross-device copy *completes* but the size
verification fails, the partial copy is deleted before the error propagates
(no file remains at the chosen destination); and the chosen destination name
never names an existing file — so nothing is silently overwritten — whenever
the plain name is free or its timestamped alternative is fresh.  (Per the
counterexample, a partial file can remain when the copy call itself throws,
and a same-second timestamp collision can overwrite.) -/
theorem moveToProcessed_verify_cleanup_and_fresh_name
    (fs : Fs) (ts : String) (filePath processedDir : String) (n ss : Nat)
    (cp : Option String)
    (hsrc : fsSize fs filePath = some ss)
    (hne : n ≠ ss)
    (hdp : getUniqueDestPath fs ts (joinPath processedDir (basename filePath)) ≠ filePath) :
    (moveToProcessed fs ⟨.exdev, .ok n, cp⟩ ts filePath processedDir).1
      = .error ("Failed to move file to Processed: " ++ copyMismatchMsg)
    ∧ fsExists (moveToProcessed fs ⟨.exdev, .ok n, cp⟩ ts filePath processedDir).2
        (getUniqueDestPath fs ts (joinPath processedDir (basename filePath))) = false
    ∧ (∀ dp, fsExists fs (stampedPath ts dp) = false →
        fsExists fs (getUniqueDestPath fs ts dp) = false) := by
  have hex : fsExists fs filePath = true := fsExists_of_fsSize fs filePath ss hsrc
  set D := getUniqueDestPath fs ts (joinPath processedDir (basename filePath)) with hD
  have hsz : fsSize (fsSet fs D n) filePath = some ss := by
    rw [fsSize_fsSet_other fs D filePath n (Ne.symm hdp)]
    exact hsrc
  have hcv : copyAndVerify fs (.ok n) filePath D
      = (some copyMismatchMsg, fsRemove (fsSet fs D n) D) := by
    simp only [copyAndVerify]
    rw [hsz]
    simp [Ne.symm hne]
  have hmove : moveToProcessed fs ⟨.exdev, .ok n, cp⟩ ts filePath processedDir
      = (.error ("Failed to move file to Processed: " ++ copyMismatchMsg),
         fsRemove (fsSet fs D n) D) := by
    simp only [moveToProcessed, hex, ← hD]
    rw [hcv]
    simp
  refine ⟨by rw [hmove], by rw [hmove]; exact fsExists_fsRemove_same _ _, ?_⟩
  intro dp hstamp
  unfold getUniqueDestPath
  split
  · exact hstamp
  · next h => simpa using h

/-- Witness for the amended C9: a mismatching 7-byte copy of a 10-byte source
is removed, and the fresh plain destination name is not an existing file. -/
theorem moveToProcessed_verify_cleanup_and_fresh_name_witness :
    (moveToProcessed [("/w/a.mp3", 10)] ⟨.exdev, .ok 7, none⟩ "TS" "/w/a.mp3" "/w/Processed").1
      = .error ("Failed to move file to Processed: " ++ copyMismatchMsg)
    ∧ fsExists (moveToProcessed [("/w/a.mp3", 10)] ⟨.exdev, .ok 7, none⟩
          "TS" "/w/a.mp3" "/w/Processed").2
        (getUniqueDestPath [("/w/a.mp3", 10)] "TS" (joinPath "/w/Processed" (basename "/w/a.mp3")))
      = false
    ∧ fsExists [("/w/a.mp3", 10)] (getUniqueDestPath [("/w/a.mp3", 10)] "TS" "/w/Processed/a.mp3")
      = false :=
  ⟨(moveToProcessed_verify_cleanup_and_fresh_name [("/w/a.mp3", 10)] "TS" "/w/a.mp3"
      "/w/Processed" 7 10 none rfl (by decide) (by decide)).1,
   (moveToProcessed_verify_cleanup_and_fresh_name [("/w/a.mp3", 10)] "TS" "/w/a.mp3"
      "/w/Processed" 7 10 none rfl (by decide) (by decide)).2.1,
   (moveToProcessed_verify_cleanup_and_fresh_name [("/w/a.mp3", 10)] "TS" "/w/a.mp3"
      "/w/Processed" 7 10 none rfl (by decide) (by decide)).2.2
     "/w/Processed/a.mp3" (by decide)⟩

/-- Claim C10: `isSupportedFile` accepts a path exactly when the lowercased
extension is a member of the allow-list; in particular the upper-case-named
file `REC.MP3` is accepted under the default lowercase list, and an
allow-list entry containing an ASCII uppercase letter can never match any
path (the lowercased extension never contains an uppercase letter). -/
theorem isSupportedFile_case_insensitive (exts : List String) (p : String) :
    (isSupportedFile exts p = true ↔ jsToLower (extname p) ∈ exts)
    ∧ isSupportedFile SUPPORTED_EXTENSIONS "/w/REC.MP3" = true
    ∧ (∀ e q, hasUpper e = true → isSupportedFile [e] q = false) := by
  refine ⟨?_, by decide, fun e q hup => ?_⟩
  · simp [isSupportedFile]
  · by_contra hne
    rw [Bool.not_eq_false] at hne
    have hmem : jsToLower (extname q) = e := by
      simpa [isSupportedFile] using hne
    exact jsToLower_ne_of_hasUpper e hup (extname q) hmem

/-- Witness for C10: the uppercase allow-list entry `.MP3` matches no path,
not even one whose lowercased extension is `.mp3`. -/
theorem isSupportedFile_case_insensitive_witness :
    isSupportedFile [".MP3"] "/w/rec.mp3" = false :=
  (isSupportedFile_case_insensitive [".MP3"] "x").2.2 ".MP3" "/w/rec.mp3" (by decide)

end GrainUploader
